import Mathlib

/-!
Shallow embedding of the ASHWAM scoring harness (`ashwam_types.py`, `scorer.py`).

Python floats are modelled as exact rationals (`ℚ`): all arithmetic in the
source is ratios and sums of small integer counts.  Python `set`s of tokens
are modelled as `Finset String`; Python's stable `list.sort(key, reverse=True)`
is modelled as `List.insertionSort` with the descending-by-score relation
(insertion sort is stable, and the stable sort of a list under a total
preorder is unique, so this is extensionally the same function).
-/

set_option maxHeartbeats 1000000

namespace Ashwam

/-- `SemanticObject` from `ashwam_types.py`: a plain record of string fields.
The Python class leaves the field values as arbitrary strings (the `Literal`
annotations are not enforced at runtime), so all fields are `String`. -/
structure SemanticObject where
  domain : String
  evidence_span : String
  polarity : String
  intensity_bucket : String := "unknown"
  arousal_bucket : String := "unknown"
  time_bucket : String := "unknown"
deriving DecidableEq, Repr, Inhabited

/-- Python `str.split()` with no argument: split on runs of whitespace,
producing no empty tokens.  Implemented by structural recursion over the
character list (with an accumulator for the current word) so that concrete
instances reduce inside the kernel. -/
def splitWhitespace : List Char → List Char → List String
  | [], acc => if acc.isEmpty then [] else [String.mk acc.reverse]
  | c :: cs, acc =>
    if c.isWhitespace then
      if acc.isEmpty then splitWhitespace cs []
      else String.mk acc.reverse :: splitWhitespace cs []
    else splitWhitespace cs (c :: acc)

/-- Token set of a span: `set(span.lower().split())` in Python.  Lower-casing
is per character, as `str.lower` is for ASCII text. -/
def tokens (s : String) : Finset String :=
  (splitWhitespace (s.data.map Char.toLower) []).toFinset

/-- `calculate_jaccard_similarity` from `scorer.py` lines 5-15. -/
def calculate_jaccard_similarity (span1 span2 : String) : ℚ :=
  let set1 := tokens span1
  let set2 := tokens span2
  if set1 = ∅ ∧ set2 = ∅ then 1
  else
    let intersection : ℕ := (set1 ∩ set2).card
    let union : ℕ := (set1 ∪ set2).card
    if union ≠ 0 then (intersection : ℚ) / (union : ℚ) else 0

/-- A potential match as the Python tuple `(jaccard_score, pred_idx, gold_idx)`. -/
abbrev Cand : Type := ℚ × ℕ × ℕ

/-- The candidate list built by the nested loop in `_match_objects`
(lines 37-42): outer loop over gold indices, inner loop over predicted
indices; a pair survives iff the domains are equal and the Jaccard score is
at least the threshold. -/
def potential_matches (th : ℚ) (gold predicted : List SemanticObject) : List Cand :=
  gold.enum.flatMap (fun gi =>
    predicted.enum.filterMap (fun pj =>
      if gi.2.domain = pj.2.domain then
        let jac := calculate_jaccard_similarity gi.2.evidence_span pj.2.evidence_span
        if th ≤ jac then some (jac, pj.1, gi.1) else none
      else none))

/-- The order used by `potential_matches.sort(key=lambda x: x[0], reverse=True)`:
descending by Jaccard score. -/
def scoreGE (a b : Cand) : Prop := b.1 ≤ a.1

instance : DecidableRel scoreGE := fun a b => inferInstanceAs (Decidable (b.1 ≤ a.1))

instance : IsTotal Cand scoreGE := ⟨fun a b => le_total b.1 a.1⟩

instance : IsTrans Cand scoreGE := ⟨fun _ _ _ h1 h2 => le_trans h2 h1⟩

/-- The sorted candidate list (line 45): stable sort, descending by score. -/
def sorted_matches (th : ℚ) (gold predicted : List SemanticObject) : List Cand :=
  List.insertionSort scoreGE (potential_matches th gold predicted)

/-- State of the greedy commit loop (lines 48-55): the committed pairs and the
two Python `set`s of consumed indices. -/
structure MatchState where
  matched_pairs : List (SemanticObject × SemanticObject)
  matched_predicted_indices : Finset ℕ
  matched_gold_indices : Finset ℕ
deriving DecidableEq

/-- One iteration of the greedy loop: commit the candidate iff neither of its
indices has been consumed. -/
def greedy_step (gold predicted : List SemanticObject) (s : MatchState) (c : Cand) :
    MatchState :=
  if c.2.1 ∉ s.matched_predicted_indices ∧ c.2.2 ∉ s.matched_gold_indices then
    { matched_pairs :=
        s.matched_pairs ++ [(gold.getD c.2.2 default, predicted.getD c.2.1 default)]
      matched_predicted_indices := insert c.2.1 s.matched_predicted_indices
      matched_gold_indices := insert c.2.2 s.matched_gold_indices }
  else s

/-- The whole greedy loop over a candidate list. -/
def run_greedy (gold predicted : List SemanticObject) (cands : List Cand) : MatchState :=
  cands.foldl (greedy_step gold predicted) ⟨[], ∅, ∅⟩

/-- `Scorer._match_objects` (lines 21-61): returns (matched pairs, false
positives, false negatives). -/
def match_objects (th : ℚ) (gold predicted : List SemanticObject) :
    List (SemanticObject × SemanticObject) × List SemanticObject × List SemanticObject :=
  let s := run_greedy gold predicted (sorted_matches th gold predicted)
  let fps := (predicted.enum.filter (fun ip => ip.1 ∉ s.matched_predicted_indices)).map Prod.snd
  let fns := (gold.enum.filter (fun ig => ig.1 ∉ s.matched_gold_indices)).map Prod.snd
  (s.matched_pairs, fps, fns)

/-- Python's substring test `span in text` (exact contiguous substring). -/
def spanInText (span text : String) : Bool :=
  decide (List.IsInfix span.data text.data)

/-- The per-document score record returned by `Scorer.score_journal`
(the dict at lines 101-114, without the `to_dict` serialisation). -/
structure JournalScore where
  tp : ℕ
  fp : ℕ
  fn : ℕ
  precision : ℚ
  «recall» : ℚ
  f1 : ℚ
  polarity_accuracy : ℚ
  bucket_accuracy : ℚ
  evidence_coverage_rate : ℚ
  matched_pairs : List (SemanticObject × SemanticObject)
  false_positives : List SemanticObject
  false_negatives : List SemanticObject
deriving DecidableEq, Repr

/-- `Scorer.score_journal` (lines 64-114). -/
def score_journal (th : ℚ) (journal_text : String)
    (gold predicted : List SemanticObject) : JournalScore :=
  let r := match_objects th gold predicted
  let mp := r.1
  let fps := r.2.1
  let fns := r.2.2
  let tp_count := mp.length
  let fp_count := fps.length
  let fn_count := fns.length
  let precision : ℚ :=
    if tp_count + fp_count > 0 then (tp_count : ℚ) / ((tp_count : ℚ) + (fp_count : ℚ)) else 0
  let «recall» : ℚ :=
    if tp_count + fn_count > 0 then (tp_count : ℚ) / ((tp_count : ℚ) + (fn_count : ℚ)) else 0
  let f1 : ℚ :=
    if precision + «recall» > 0 then 2 * precision * «recall» / (precision + «recall») else 0
  let correct_polarity_count := mp.countP (fun gp => gp.1.polarity == gp.2.polarity)
  let polarity_accuracy : ℚ :=
    if tp_count > 0 then (correct_polarity_count : ℚ) / (tp_count : ℚ) else 0
  let correct_bucket_count := mp.countP (fun gp =>
    if gp.1.domain == "emotion" then gp.1.arousal_bucket == gp.2.arousal_bucket
    else gp.1.intensity_bucket == gp.2.intensity_bucket)
  let bucket_accuracy : ℚ :=
    if tp_count > 0 then (correct_bucket_count : ℚ) / (tp_count : ℚ) else 0
  let valid_evidence_spans := predicted.countP (fun p => spanInText p.evidence_span journal_text)
  let evidence_coverage_rate : ℚ :=
    if predicted.length > 0 then (valid_evidence_spans : ℚ) / (predicted.length : ℚ) else 0
  { tp := tp_count, fp := fp_count, fn := fn_count
    precision := precision, «recall» := «recall», f1 := f1
    polarity_accuracy := polarity_accuracy
    bucket_accuracy := bucket_accuracy
    evidence_coverage_rate := evidence_coverage_rate
    matched_pairs := mp, false_positives := fps, false_negatives := fns }

/-- The corpus summary returned by `Scorer.overall_scores`. -/
structure OverallScores where
  overall_precision : ℚ
  overall_recall : ℚ
  overall_f1 : ℚ
  overall_polarity_accuracy : ℚ
  overall_bucket_accuracy : ℚ
  overall_evidence_coverage_rate : ℚ
deriving DecidableEq, Repr

/-- `Scorer.overall_scores` (lines 116-145). -/
def overall_scores (all_journal_scores : List JournalScore) : OverallScores :=
  let total_tp : ℕ := (all_journal_scores.map (fun s => s.tp)).sum
  let total_fp : ℕ := (all_journal_scores.map (fun s => s.fp)).sum
  let total_fn : ℕ := (all_journal_scores.map (fun s => s.fn)).sum
  let overall_precision : ℚ :=
    if total_tp + total_fp > 0 then (total_tp : ℚ) / ((total_tp : ℚ) + (total_fp : ℚ)) else 0
  let overall_recall : ℚ :=
    if total_tp + total_fn > 0 then (total_tp : ℚ) / ((total_tp : ℚ) + (total_fn : ℚ)) else 0
  let overall_f1 : ℚ :=
    if overall_precision + overall_recall > 0 then
      2 * overall_precision * overall_recall / (overall_precision + overall_recall)
    else 0
  let total_polarity_correct : ℚ :=
    (all_journal_scores.map (fun s => s.polarity_accuracy * (s.tp : ℚ))).sum
  let overall_polarity_accuracy : ℚ :=
    if total_tp > 0 then total_polarity_correct / (total_tp : ℚ) else 0
  let total_bucket_correct : ℚ :=
    (all_journal_scores.map (fun s => s.bucket_accuracy * (s.tp : ℚ))).sum
  let overall_bucket_accuracy : ℚ :=
    if total_tp > 0 then total_bucket_correct / (total_tp : ℚ) else 0
  let total_valid_evidence_spans : ℚ :=
    (all_journal_scores.map (fun s => s.evidence_coverage_rate * ((s.tp : ℚ) + (s.fp : ℚ)))).sum
  let total_predicted_objects : ℕ := (all_journal_scores.map (fun s => s.tp + s.fp)).sum
  let overall_evidence_coverage_rate : ℚ :=
    if total_predicted_objects > 0 then
      total_valid_evidence_spans / (total_predicted_objects : ℚ)
    else 0
  { overall_precision := overall_precision
    overall_recall := overall_recall
    overall_f1 := overall_f1
    overall_polarity_accuracy := overall_polarity_accuracy
    overall_bucket_accuracy := overall_bucket_accuracy
    overall_evidence_coverage_rate := overall_evidence_coverage_rate }

end Ashwam

namespace Ashwam

/-! ### Helper lemmas about the candidate list -/

theorem enum_getD {α : Type} [Inhabited α] {l : List α} {x : ℕ × α} (h : x ∈ l.enum) :
    x.1 < l.length ∧ l.getD x.1 default = x.2 := by
  rw [List.mem_enum_iff_getElem?] at h
  refine ⟨(List.getElem?_eq_some.mp h).1, ?_⟩
  simp [List.getD_eq_getElem?_getD, h]

theorem mem_potential_matches {th : ℚ} {gold predicted : List SemanticObject} {c : Cand}
    (hc : c ∈ potential_matches th gold predicted) :
    c.2.1 < predicted.length ∧ c.2.2 < gold.length ∧
      (gold.getD c.2.2 default).domain = (predicted.getD c.2.1 default).domain ∧
      th ≤ c.1 := by
  unfold potential_matches at hc
  rw [List.mem_flatMap] at hc
  obtain ⟨gi, hgi, hc⟩ := hc
  rw [List.mem_filterMap] at hc
  obtain ⟨pj, hpj, hfc⟩ := hc
  obtain ⟨hgi1, hgi2⟩ := enum_getD hgi
  obtain ⟨hpj1, hpj2⟩ := enum_getD hpj
  by_cases hdom : gi.2.domain = pj.2.domain
  · rw [if_pos hdom] at hfc
    simp only [] at hfc
    by_cases hth : th ≤ calculate_jaccard_similarity gi.2.evidence_span pj.2.evidence_span
    · rw [if_pos hth] at hfc
      obtain rfl := Option.some.inj hfc
      exact ⟨hpj1, hgi1, by rw [hgi2, hpj2]; exact hdom, hth⟩
    · rw [if_neg hth] at hfc
      exact absurd hfc (by simp)
  · rw [if_neg hdom] at hfc
    exact absurd hfc (by simp)

theorem mem_sorted_matches {th : ℚ} {gold predicted : List SemanticObject} {c : Cand} :
    c ∈ sorted_matches th gold predicted ↔ c ∈ potential_matches th gold predicted :=
  List.mem_insertionSort scoreGE

/-! ### Helper lemmas about the greedy loop -/

theorem greedy_inv (gold predicted : List SemanticObject) (l : List Cand)
    (hl : ∀ c ∈ l, c.2.1 < predicted.length ∧ c.2.2 < gold.length) (s : MatchState)
    (h1 : s.matched_pairs.length = s.matched_predicted_indices.card)
    (h2 : s.matched_pairs.length = s.matched_gold_indices.card)
    (h3 : s.matched_predicted_indices ⊆ Finset.range predicted.length)
    (h4 : s.matched_gold_indices ⊆ Finset.range gold.length) :
    (l.foldl (greedy_step gold predicted) s).matched_pairs.length
        = (l.foldl (greedy_step gold predicted) s).matched_predicted_indices.card ∧
      (l.foldl (greedy_step gold predicted) s).matched_pairs.length
        = (l.foldl (greedy_step gold predicted) s).matched_gold_indices.card ∧
      (l.foldl (greedy_step gold predicted) s).matched_predicted_indices
        ⊆ Finset.range predicted.length ∧
      (l.foldl (greedy_step gold predicted) s).matched_gold_indices
        ⊆ Finset.range gold.length := by
  induction l generalizing s with
  | nil => exact ⟨h1, h2, h3, h4⟩
  | cons c l ih =>
    rw [List.foldl_cons]
    have hcv := hl c (List.mem_cons_self c l)
    have hl' : ∀ c' ∈ l, c'.2.1 < predicted.length ∧ c'.2.2 < gold.length :=
      fun c' h => hl c' (List.mem_cons_of_mem c h)
    by_cases hfree : c.2.1 ∉ s.matched_predicted_indices ∧ c.2.2 ∉ s.matched_gold_indices
    · rw [greedy_step, if_pos hfree]
      refine ih hl' _ ?_ ?_ ?_ ?_
      · simp [Finset.card_insert_of_not_mem hfree.1, h1]
      · simp [Finset.card_insert_of_not_mem hfree.2, h2]
      · exact Finset.insert_subset (Finset.mem_range.mpr hcv.1) h3
      · exact Finset.insert_subset (Finset.mem_range.mpr hcv.2) h4
    · rw [greedy_step, if_neg hfree]
      exact ih hl' _ h1 h2 h3 h4

theorem greedy_pairs_length_le (gold predicted : List SemanticObject) (l : List Cand)
    (s : MatchState) :
    s.matched_pairs.length ≤ ((l.foldl (greedy_step gold predicted) s).matched_pairs).length := by
  induction l generalizing s with
  | nil => exact le_refl _
  | cons c l ih =>
    rw [List.foldl_cons]
    refine le_trans ?_ (ih (greedy_step gold predicted s c))
    by_cases hfree : c.2.1 ∉ s.matched_predicted_indices ∧ c.2.2 ∉ s.matched_gold_indices
    · rw [greedy_step, if_pos hfree]
      simp
    · rw [greedy_step, if_neg hfree]

theorem greedy_pairs_domain (gold predicted : List SemanticObject) (l : List Cand)
    (hl : ∀ c ∈ l, (gold.getD c.2.2 default).domain = (predicted.getD c.2.1 default).domain)
    (s : MatchState) (hs : ∀ pr ∈ s.matched_pairs, pr.1.domain = pr.2.domain) :
    ∀ pr ∈ (l.foldl (greedy_step gold predicted) s).matched_pairs,
      pr.1.domain = pr.2.domain := by
  induction l generalizing s with
  | nil => exact hs
  | cons c l ih =>
    rw [List.foldl_cons]
    have hl' : ∀ c' ∈ l,
        (gold.getD c'.2.2 default).domain = (predicted.getD c'.2.1 default).domain :=
      fun c' h => hl c' (List.mem_cons_of_mem c h)
    refine ih hl' _ ?_
    by_cases hfree : c.2.1 ∉ s.matched_predicted_indices ∧ c.2.2 ∉ s.matched_gold_indices
    · rw [greedy_step, if_pos hfree]
      intro pr hpr
      simp only [List.mem_append, List.mem_singleton] at hpr
      rcases hpr with hpr | hpr
      · exact hs pr hpr
      · rw [hpr]
        exact hl c (List.mem_cons_self c l)
    · rw [greedy_step, if_neg hfree]
      exact hs

end Ashwam

namespace Ashwam

theorem length_range_filter_not_mem (n : ℕ) (s : Finset ℕ) (h : s ⊆ Finset.range n) :
    ((List.range n).filter (fun i => decide (i ∉ s))).length = n - s.card := by
  have h1 : ((Finset.range n).filter (fun i => i ∉ s)).card = n - s.card := by
    rw [Finset.filter_not, Finset.filter_mem_eq_inter, Finset.inter_eq_right.mpr h]
    simp [Finset.card_sdiff h]
  rw [← h1]
  rfl

theorem length_enum_filter_not_mem {α : Type} (l : List α) (s : Finset ℕ)
    (h : s ⊆ Finset.range l.length) :
    ((l.enum.filter (fun ip => decide (ip.1 ∉ s))).map Prod.snd).length
      = l.length - s.card := by
  rw [List.length_map]
  have h2 : ((l.enum.map Prod.fst).filter (fun i => decide (i ∉ s))).length
      = ((l.enum.filter (fun ip => decide (ip.1 ∉ s))).map Prod.fst).length := by
    rw [List.filter_map]
    rfl
  rw [List.length_map] at h2
  rw [← h2, List.enum_map_fst, length_range_filter_not_mem l.length s h]

/-- The canonical counting facts about the final greedy state. -/
theorem match_state_facts (th : ℚ) (gold predicted : List SemanticObject) :
    (run_greedy gold predicted (sorted_matches th gold predicted)).matched_pairs.length
        = (run_greedy gold predicted
            (sorted_matches th gold predicted)).matched_predicted_indices.card ∧
      (run_greedy gold predicted (sorted_matches th gold predicted)).matched_pairs.length
        = (run_greedy gold predicted
            (sorted_matches th gold predicted)).matched_gold_indices.card ∧
      (run_greedy gold predicted (sorted_matches th gold predicted)).matched_predicted_indices
        ⊆ Finset.range predicted.length ∧
      (run_greedy gold predicted (sorted_matches th gold predicted)).matched_gold_indices
        ⊆ Finset.range gold.length := by
  refine greedy_inv gold predicted _ ?_ _ rfl rfl (by simp) (by simp)
  intro c hc
  have := mem_potential_matches (mem_sorted_matches.mp hc)
  exact ⟨this.1, this.2.1⟩

theorem tp_add_fp_eq (th : ℚ) (gold predicted : List SemanticObject) :
    (match_objects th gold predicted).1.length
        + (match_objects th gold predicted).2.1.length = predicted.length := by
  obtain ⟨h1, _, h3, _⟩ := match_state_facts th gold predicted
  unfold match_objects
  simp only []
  rw [h1, length_enum_filter_not_mem predicted _ h3]
  have hle := Finset.card_le_card h3
  rw [Finset.card_range] at hle
  omega

theorem tp_add_fn_eq (th : ℚ) (gold predicted : List SemanticObject) :
    (match_objects th gold predicted).1.length
        + (match_objects th gold predicted).2.2.length = gold.length := by
  obtain ⟨_, h2, _, h4⟩ := match_state_facts th gold predicted
  unfold match_objects
  simp only []
  rw [h2, length_enum_filter_not_mem gold _ h4]
  have hle := Finset.card_le_card h4
  rw [Finset.card_range] at hle
  omega

end Ashwam

namespace Ashwam

/-! ### Stable-sort lemmas for the descending score order -/

theorem orderedInsert_append_of_rel (x : Cand) (B : List Cand)
    (hB : ∀ b ∈ B, scoreGE x b) :
    ∀ A : List Cand, List.orderedInsert scoreGE x (A ++ B)
      = List.orderedInsert scoreGE x A ++ B
  | [] => by
    cases B with
    | nil => rfl
    | cons b B' =>
      simp only [List.nil_append, List.orderedInsert]
      rw [if_pos (hB b (List.mem_cons_self b B'))]
      rfl
  | a :: A' => by
    simp only [List.cons_append, List.orderedInsert, List.append_eq]
    by_cases hxa : scoreGE x a
    · rw [if_pos hxa, if_pos hxa]
      rfl
    · rw [if_neg hxa, if_neg hxa, orderedInsert_append_of_rel x B hB A']
      rfl

theorem orderedInsert_append_of_not_rel (x : Cand) (A B : List Cand)
    (hA : ∀ a ∈ A, ¬ scoreGE x a) :
    List.orderedInsert scoreGE x (A ++ B) = A ++ List.orderedInsert scoreGE x B := by
  induction A with
  | nil => rfl
  | cons a A' ih =>
    simp only [List.cons_append, List.orderedInsert, List.append_eq]
    rw [if_neg (hA a (List.mem_cons_self a A')),
      ih (fun a' h => hA a' (List.mem_cons_of_mem a h))]

/-- A stable sort splits at a score threshold: sorting a list is sorting the
high part and appending the sorted low part. -/
theorem insertionSort_split (p : Cand → Bool)
    (hp : ∀ a b : Cand, p a = true → p b = false → scoreGE a b ∧ ¬ scoreGE b a) :
    ∀ l : List Cand,
      List.insertionSort scoreGE l
        = List.insertionSort scoreGE (l.filter p)
          ++ List.insertionSort scoreGE (l.filter (fun c => ! p c))
  | [] => rfl
  | x :: l => by
    have ih := insertionSort_split p hp l
    by_cases hx : p x = true
    · have hb : ∀ b ∈ List.insertionSort scoreGE (l.filter (fun c => ! p c)), scoreGE x b := by
        intro b hbmem
        have hb2 := (List.mem_filter.mp ((List.mem_insertionSort scoreGE).mp hbmem)).2
        have hpb : p b = false := by simpa using hb2
        exact (hp x b hx hpb).1
      have e1 : (x :: l).filter p = x :: l.filter p := by simp [hx]
      have e2 : (x :: l).filter (fun c => ! p c) = l.filter (fun c => ! p c) := by simp [hx]
      rw [e1, e2]
      show List.orderedInsert scoreGE x (List.insertionSort scoreGE l) = _
      rw [ih, orderedInsert_append_of_rel x _ hb]
      rfl
    · have hx' : p x = false := by simpa using hx
      have ha : ∀ a ∈ List.insertionSort scoreGE (l.filter p), ¬ scoreGE x a := by
        intro a hamem
        have ha2 := (List.mem_filter.mp ((List.mem_insertionSort scoreGE).mp hamem)).2
        exact (hp a x ha2 hx').2
      have e1 : (x :: l).filter p = l.filter p := by simp [hx']
      have e2 : (x :: l).filter (fun c => ! p c) = x :: l.filter (fun c => ! p c) := by
        simp [hx']
      rw [e1, e2]
      show List.orderedInsert scoreGE x (List.insertionSort scoreGE l) = _
      rw [ih, orderedInsert_append_of_not_rel x _ _ ha]
      rfl

/-- Filtering the candidate list at a higher threshold yields exactly the
candidate list generated at that higher threshold. -/
theorem filter_potential_matches {t1 t2 : ℚ} (h12 : t1 ≤ t2)
    (gold predicted : List SemanticObject) :
    (potential_matches t1 gold predicted).filter (fun c => decide (t2 ≤ c.1))
      = potential_matches t2 gold predicted := by
  unfold potential_matches
  rw [List.filter_flatMap]
  refine List.flatMap_congr ?_
  intro gi _
  rw [List.filter_filterMap]
  refine List.filterMap_congr ?_
  intro pj _
  by_cases hdom : gi.2.domain = pj.2.domain
  · rw [if_pos hdom, if_pos hdom]
    simp only []
    by_cases h2 : t2 ≤ calculate_jaccard_similarity gi.2.evidence_span pj.2.evidence_span
    · rw [if_pos (le_trans h12 h2), if_pos h2]
      simp [Option.filter, h2]
    · by_cases h1 : t1 ≤ calculate_jaccard_similarity gi.2.evidence_span pj.2.evidence_span
      · rw [if_pos h1, if_neg h2]
        simp [Option.filter, h2]
      · rw [if_neg h1, if_neg h2]
        rfl
  · rw [if_neg hdom, if_neg hdom]
    rfl

end Ashwam

namespace Ashwam

theorem sorted_matches_split {t1 t2 : ℚ} (h12 : t1 ≤ t2)
    (gold predicted : List SemanticObject) :
    sorted_matches t1 gold predicted
      = sorted_matches t2 gold predicted
        ++ List.insertionSort scoreGE
            ((potential_matches t1 gold predicted).filter (fun c => ! decide (t2 ≤ c.1))) := by
  have hp : ∀ a b : Cand, (decide (t2 ≤ a.1)) = true → (decide (t2 ≤ b.1)) = false →
      scoreGE a b ∧ ¬ scoreGE b a := by
    intro a b ha hb
    have ha' : t2 ≤ a.1 := of_decide_eq_true ha
    have hb' : b.1 < t2 := lt_of_not_le (of_decide_eq_false hb)
    exact ⟨le_of_lt (lt_of_lt_of_le hb' ha'), not_le.mpr (lt_of_lt_of_le hb' ha')⟩
  unfold sorted_matches
  rw [insertionSort_split (fun c => decide (t2 ≤ c.1)) hp (potential_matches t1 gold predicted),
    filter_potential_matches h12]

theorem tp_mono_threshold {t1 t2 : ℚ} (h12 : t1 ≤ t2) (gold predicted : List SemanticObject) :
    (match_objects t2 gold predicted).1.length ≤ (match_objects t1 gold predicted).1.length := by
  have e1 : (match_objects t1 gold predicted).1
      = (run_greedy gold predicted (sorted_matches t1 gold predicted)).matched_pairs := rfl
  have e2 : (match_objects t2 gold predicted).1
      = (run_greedy gold predicted (sorted_matches t2 gold predicted)).matched_pairs := rfl
  rw [e1, e2, sorted_matches_split h12 gold predicted]
  unfold run_greedy
  rw [List.foldl_append]
  exact greedy_pairs_length_le gold predicted _ _

/-- C2: for every gold and predicted sequence (and any threshold), the matcher
returns counts with tp + fn = |gold| and tp + fp = |predicted|, where tp is the
number of matched pairs, fp the unmatched predicted objects, fn the unmatched
gold objects. -/
theorem claim_C2_count_conservation (th : ℚ) (gold predicted : List SemanticObject) :
    (match_objects th gold predicted).1.length
        + (match_objects th gold predicted).2.2.length = gold.length ∧
      (match_objects th gold predicted).1.length
        + (match_objects th gold predicted).2.1.length = predicted.length :=
  ⟨tp_add_fn_eq th gold predicted, tp_add_fp_eq th gold predicted⟩

/-- C3: for fixed gold and predicted inputs, the number of matched pairs is
monotonically non-increasing in the threshold: t1 ≤ t2 implies the matcher at
t2 produces at most as many pairs as at t1. -/
theorem claim_C3_tp_monotone (gold predicted : List SemanticObject) (t1 t2 : ℚ)
    (h : t1 ≤ t2) :
    (match_objects t2 gold predicted).1.length
      ≤ (match_objects t1 gold predicted).1.length :=
  tp_mono_threshold h gold predicted

/-- C8: matching is domain-gated — every matched pair returned by the matcher
has equal gold and predicted domain fields, for every threshold. -/
theorem claim_C8_domain_gated (th : ℚ) (gold predicted : List SemanticObject)
    (pr : SemanticObject × SemanticObject) (hpr : pr ∈ (match_objects th gold predicted).1) :
    pr.1.domain = pr.2.domain := by
  have e : (match_objects th gold predicted).1
      = (run_greedy gold predicted (sorted_matches th gold predicted)).matched_pairs := rfl
  rw [e] at hpr
  refine greedy_pairs_domain gold predicted _ ?_ _ ?_ pr hpr
  · intro c hc
    exact (mem_potential_matches (mem_sorted_matches.mp hc)).2.2.1
  · intro pr' hpr'
    exact absurd hpr' (List.not_mem_nil pr')

end Ashwam

namespace Ashwam

/-! Batteries marks `Rat.mul`, `Rat.inv` and `Rat.add` `@[irreducible]`; the
concrete witnesses below evaluate rational arithmetic inside the kernel, so
restore semireducibility locally. -/

attribute [local semireducible] Rat.mul Rat.inv Rat.add

/-! ### Field equations of `score_journal` -/

theorem score_journal_tp (th : ℚ) (text : String) (gold predicted : List SemanticObject) :
    (score_journal th text gold predicted).tp = (match_objects th gold predicted).1.length := rfl

theorem score_journal_fp (th : ℚ) (text : String) (gold predicted : List SemanticObject) :
    (score_journal th text gold predicted).fp
      = (match_objects th gold predicted).2.1.length := rfl

theorem score_journal_fn (th : ℚ) (text : String) (gold predicted : List SemanticObject) :
    (score_journal th text gold predicted).fn
      = (match_objects th gold predicted).2.2.length := rfl

theorem score_journal_precision (th : ℚ) (text : String)
    (gold predicted : List SemanticObject) :
    (score_journal th text gold predicted).precision
      = if (match_objects th gold predicted).1.length
            + (match_objects th gold predicted).2.1.length > 0
        then ((match_objects th gold predicted).1.length : ℚ)
              / (((match_objects th gold predicted).1.length : ℚ)
                  + ((match_objects th gold predicted).2.1.length : ℚ))
        else 0 := rfl

theorem score_journal_recall (th : ℚ) (text : String)
    (gold predicted : List SemanticObject) :
    (score_journal th text gold predicted).recall
      = if (match_objects th gold predicted).1.length
            + (match_objects th gold predicted).2.2.length > 0
        then ((match_objects th gold predicted).1.length : ℚ)
              / (((match_objects th gold predicted).1.length : ℚ)
                  + ((match_objects th gold predicted).2.2.length : ℚ))
        else 0 := rfl

theorem score_journal_f1 (th : ℚ) (text : String) (gold predicted : List SemanticObject) :
    (score_journal th text gold predicted).f1
      = if (score_journal th text gold predicted).precision
            + (score_journal th text gold predicted).recall > 0
        then 2 * (score_journal th text gold predicted).precision
              * (score_journal th text gold predicted).recall
              / ((score_journal th text gold predicted).precision
                  + (score_journal th text gold predicted).recall)
        else 0 := rfl

theorem score_journal_polarity (th : ℚ) (text : String)
    (gold predicted : List SemanticObject) :
    (score_journal th text gold predicted).polarity_accuracy
      = if (match_objects th gold predicted).1.length > 0
        then (((match_objects th gold predicted).1.countP
                (fun gp => gp.1.polarity == gp.2.polarity)) : ℚ)
              / ((match_objects th gold predicted).1.length : ℚ)
        else 0 := rfl

theorem score_journal_bucket (th : ℚ) (text : String)
    (gold predicted : List SemanticObject) :
    (score_journal th text gold predicted).bucket_accuracy
      = if (match_objects th gold predicted).1.length > 0
        then (((match_objects th gold predicted).1.countP (fun gp =>
                if gp.1.domain == "emotion" then gp.1.arousal_bucket == gp.2.arousal_bucket
                else gp.1.intensity_bucket == gp.2.intensity_bucket)) : ℚ)
              / ((match_objects th gold predicted).1.length : ℚ)
        else 0 := rfl

theorem score_journal_coverage (th : ℚ) (text : String)
    (gold predicted : List SemanticObject) :
    (score_journal th text gold predicted).evidence_coverage_rate
      = if predicted.length > 0
        then ((predicted.countP (fun p => spanInText p.evidence_span text)) : ℚ)
              / (predicted.length : ℚ)
        else 0 := rfl

/-! ### Jaccard similarity properties -/

theorem jaccard_symm (a b : String) :
    calculate_jaccard_similarity a b = calculate_jaccard_similarity b a := by
  unfold calculate_jaccard_similarity
  simp only []
  rw [Finset.inter_comm (tokens a) (tokens b), Finset.union_comm (tokens a) (tokens b)]
  by_cases h : tokens a = ∅ ∧ tokens b = ∅
  · rw [if_pos h, if_pos ⟨h.2, h.1⟩]
  · rw [if_neg h,
      if_neg (show ¬ (tokens b = ∅ ∧ tokens a = ∅) from fun hc => h ⟨hc.2, hc.1⟩)]

theorem jaccard_self (a : String) : calculate_jaccard_similarity a a = 1 := by
  unfold calculate_jaccard_similarity
  simp only []
  by_cases h : tokens a = ∅
  · rw [if_pos ⟨h, h⟩]
  · rw [if_neg (fun hc => h hc.1), Finset.inter_self, Finset.union_self]
    have hcard : (tokens a).card ≠ 0 := fun hc => h (Finset.card_eq_zero.mp hc)
    rw [if_pos hcard]
    exact div_self (by exact_mod_cast hcard)

/-- C5: the Jaccard similarity is symmetric in its two arguments, equals 1.0
on every pair of identical non-empty texts, and is defined as 1.0 on two empty
texts (both tokenize to the empty set). -/
theorem claim_C5_jaccard_properties :
    (∀ a b : String, calculate_jaccard_similarity a b = calculate_jaccard_similarity b a) ∧
      (∀ a : String, a ≠ "" → calculate_jaccard_similarity a a = 1) ∧
      calculate_jaccard_similarity "" "" = 1 :=
  ⟨jaccard_symm, fun a _ => jaccard_self a, jaccard_self ""⟩

/-- Concrete instantiation of `claim_C5_jaccard_properties`. -/
theorem claim_C5_witness :
    calculate_jaccard_similarity "ab cd" "ef"
        = calculate_jaccard_similarity "ef" "ab cd" ∧
      ("ab" ≠ "" ∧ calculate_jaccard_similarity "ab" "ab" = 1) ∧
      calculate_jaccard_similarity "" "" = 1 :=
  ⟨claim_C5_jaccard_properties.1 "ab cd" "ef",
    ⟨by decide, claim_C5_jaccard_properties.2.1 "ab" (by decide)⟩,
    claim_C5_jaccard_properties.2.2⟩

end Ashwam

namespace Ashwam

attribute [local semireducible] Rat.mul Rat.inv Rat.add

/-- Gold object of the spec's worked scenario. -/
def exGold : SemanticObject :=
  { domain := "symptom", evidence_span := "sharp stomach pain", polarity := "present",
    intensity_bucket := "high", arousal_bucket := "unknown", time_bucket := "today" }

/-- Predicted object of the spec's worked scenario. -/
def exPred : SemanticObject :=
  { domain := "symptom", evidence_span := "stomach pain", polarity := "present",
    intensity_bucket := "high", arousal_bucket := "unknown", time_bucket := "today" }

/-- Concrete instantiation of `claim_C3_tp_monotone` at thresholds 1/2 ≤ 1. -/
theorem claim_C3_witness :
    ((1:ℚ)/2 ≤ 1) ∧
      (match_objects 1 [exGold] [exPred]).1.length
        ≤ (match_objects (1/2) [exGold] [exPred]).1.length :=
  ⟨by decide, claim_C3_tp_monotone [exGold] [exPred] (1/2) 1 (by decide)⟩

/-- Concrete instantiation of `claim_C8_domain_gated` on an actually matched
pair. -/
theorem claim_C8_witness :
    (exGold, exPred) ∈ (match_objects (1/2) [exGold] [exPred]).1 ∧
      (exGold, exPred).1.domain = (exGold, exPred).2.domain :=
  ⟨by decide,
    claim_C8_domain_gated (1/2) [exGold] [exPred] (exGold, exPred) (by decide)⟩

/-- C6: evidence_coverage_rate is the fraction of ALL predicted objects whose
evidence_span occurs verbatim as a substring of the document text; it does not
depend on the gold set or the threshold (hence not on which predicted objects
matched), and it is 0.0 when the predicted set is empty. -/
theorem claim_C6_coverage_over_all_predicted (th th' : ℚ) (text : String)
    (gold gold' predicted : List SemanticObject) :
    (score_journal th text gold predicted).evidence_coverage_rate
        = (if predicted.length > 0
           then ((predicted.countP (fun p => spanInText p.evidence_span text)) : ℚ)
                / (predicted.length : ℚ)
           else 0) ∧
      (score_journal th text gold predicted).evidence_coverage_rate
        = (score_journal th' text gold' predicted).evidence_coverage_rate ∧
      (predicted = [] → (score_journal th text gold predicted).evidence_coverage_rate = 0) :=
  ⟨score_journal_coverage th text gold predicted,
    by rw [score_journal_coverage, score_journal_coverage],
    fun hp => by subst hp; rfl⟩

/-- Concrete instantiation of `claim_C6_coverage_over_all_predicted`: an
unmatched document with no predictions has coverage 0. -/
theorem claim_C6_witness :
    (score_journal (1/2) "note" [exGold] []).evidence_coverage_rate = 0 :=
  (claim_C6_coverage_over_all_predicted (1/2) 1 "note" [exGold] [] []).2.2 rfl

/-- C7: every zero-denominator case resolves to 0.0 — precision when tp+fp=0,
recall when tp+fn=0, f1 when precision+recall=0, polarity/bucket accuracy when
tp=0, coverage when there are no predictions — and scoring empty gold against
empty predicted yields all-zero counts and ratios. -/
theorem claim_C7_degenerate_zero (th : ℚ) (text : String)
    (gold predicted : List SemanticObject) :
    ((score_journal th text gold predicted).tp + (score_journal th text gold predicted).fp = 0 →
        (score_journal th text gold predicted).precision = 0) ∧
      ((score_journal th text gold predicted).tp + (score_journal th text gold predicted).fn = 0 →
        (score_journal th text gold predicted).recall = 0) ∧
      ((score_journal th text gold predicted).precision
          + (score_journal th text gold predicted).recall = 0 →
        (score_journal th text gold predicted).f1 = 0) ∧
      ((score_journal th text gold predicted).tp = 0 →
        (score_journal th text gold predicted).polarity_accuracy = 0 ∧
          (score_journal th text gold predicted).bucket_accuracy = 0) ∧
      (predicted = [] → (score_journal th text gold predicted).evidence_coverage_rate = 0) ∧
      (gold = [] → predicted = [] →
        (score_journal th text gold predicted).tp = 0 ∧
          (score_journal th text gold predicted).fp = 0 ∧
          (score_journal th text gold predicted).fn = 0 ∧
          (score_journal th text gold predicted).precision = 0 ∧
          (score_journal th text gold predicted).recall = 0 ∧
          (score_journal th text gold predicted).f1 = 0 ∧
          (score_journal th text gold predicted).evidence_coverage_rate = 0) := by
  refine ⟨?_, ?_, ?_, ?_, ?_, ?_⟩
  · intro h
    rw [score_journal_tp, score_journal_fp] at h
    rw [score_journal_precision, if_neg (by omega)]
  · intro h
    rw [score_journal_tp, score_journal_fn] at h
    rw [score_journal_recall, if_neg (by omega)]
  · intro h
    rw [score_journal_f1, if_neg (by rw [h]; exact lt_irrefl 0)]
  · intro h
    rw [score_journal_tp] at h
    constructor
    · rw [score_journal_polarity, if_neg (by omega)]
    · rw [score_journal_bucket, if_neg (by omega)]
  · intro hp
    subst hp
    rfl
  · intro hg hp
    subst hg
    subst hp
    have hpre : (score_journal th text [] []).precision = 0 := rfl
    have hrec : (score_journal th text [] []).recall = 0 := rfl
    have hf1 : (score_journal th text [] []).f1 = 0 := by
      rw [score_journal_f1, hpre, hrec, if_neg (by norm_num)]
    exact ⟨rfl, rfl, rfl, hpre, hrec, hf1, rfl⟩

/-- Concrete instantiation of `claim_C7_degenerate_zero` on the empty/empty
document. -/
theorem claim_C7_witness :
    (score_journal (1/2) "note" [] []).precision = 0 ∧
      (score_journal (1/2) "note" [] []).recall = 0 ∧
      (score_journal (1/2) "note" [] []).f1 = 0 ∧
      (score_journal (1/2) "note" [] []).polarity_accuracy = 0 ∧
      (score_journal (1/2) "note" [] []).bucket_accuracy = 0 ∧
      (score_journal (1/2) "note" [] []).evidence_coverage_rate = 0 ∧
      (score_journal (1/2) "note" [] []).tp = 0 ∧
      (score_journal (1/2) "note" [] []).fp = 0 ∧
      (score_journal (1/2) "note" [] []).fn = 0 :=
  have h := claim_C7_degenerate_zero (1/2) "note" [] []
  ⟨h.1 rfl, h.2.1 rfl, h.2.2.1 (by decide), (h.2.2.2.1 rfl).1, (h.2.2.2.1 rfl).2,
    h.2.2.2.2.1 rfl, (h.2.2.2.2.2 rfl rfl).1, (h.2.2.2.2.2 rfl rfl).2.1,
    (h.2.2.2.2.2 rfl rfl).2.2.1⟩

end Ashwam

namespace Ashwam

attribute [local semireducible] Rat.mul Rat.inv Rat.add

/-! ### Field equations of `overall_scores` -/

theorem overall_scores_polarity (ss : List JournalScore) :
    (overall_scores ss).overall_polarity_accuracy
      = if (ss.map (fun s => s.tp)).sum > 0
        then (ss.map (fun s => s.polarity_accuracy * (s.tp : ℚ))).sum
              / (((ss.map (fun s => s.tp)).sum : ℕ) : ℚ)
        else 0 := rfl

theorem overall_scores_bucket (ss : List JournalScore) :
    (overall_scores ss).overall_bucket_accuracy
      = if (ss.map (fun s => s.tp)).sum > 0
        then (ss.map (fun s => s.bucket_accuracy * (s.tp : ℚ))).sum
              / (((ss.map (fun s => s.tp)).sum : ℕ) : ℚ)
        else 0 := rfl

theorem overall_scores_coverage (ss : List JournalScore) :
    (overall_scores ss).overall_evidence_coverage_rate
      = if (ss.map (fun s => s.tp + s.fp)).sum > 0
        then (ss.map (fun s => s.evidence_coverage_rate * ((s.tp : ℚ) + (s.fp : ℚ)))).sum
              / (((ss.map (fun s => s.tp + s.fp)).sum : ℕ) : ℚ)
        else 0 := rfl

/-- Score record with tp=1 and polarity_accuracy=1.0 from the spec's
count-weighting example. -/
def exScoreA : JournalScore :=
  { tp := 1, fp := 0, fn := 0, precision := 1, «recall» := 1, f1 := 1,
    polarity_accuracy := 1, bucket_accuracy := 1, evidence_coverage_rate := 0,
    matched_pairs := [], false_positives := [], false_negatives := [] }

/-- Score record with tp=3 and polarity_accuracy=0.0 from the spec's
count-weighting example. -/
def exScoreB : JournalScore :=
  { tp := 3, fp := 0, fn := 0, precision := 1, «recall» := 1, f1 := 1,
    polarity_accuracy := 0, bucket_accuracy := 0, evidence_coverage_rate := 0,
    matched_pairs := [], false_positives := [], false_negatives := [] }

/-- C1: corpus aggregation of the two accuracies is exactly tp-weighted:
overall_polarity_accuracy is Σ(polarity_accuracy·tp) / Σtp with 0.0 when the
total tp is 0, the same formula computes overall_bucket_accuracy, and on the
spec's two-document example (tp=1, acc=1.0) and (tp=3, acc=0.0) the result is
0.25, not the naive mean 0.5. -/
theorem claim_C1_weighted_aggregation :
    (∀ ss : List JournalScore,
      (overall_scores ss).overall_polarity_accuracy
          = (if (ss.map (fun s => s.tp)).sum = 0 then 0
             else (ss.map (fun s => s.polarity_accuracy * (s.tp : ℚ))).sum
                  / (((ss.map (fun s => s.tp)).sum : ℕ) : ℚ)) ∧
        (overall_scores ss).overall_bucket_accuracy
          = (if (ss.map (fun s => s.tp)).sum = 0 then 0
             else (ss.map (fun s => s.bucket_accuracy * (s.tp : ℚ))).sum
                  / (((ss.map (fun s => s.tp)).sum : ℕ) : ℚ))) ∧
      (overall_scores [exScoreA, exScoreB]).overall_polarity_accuracy = 1/4 ∧
      ¬ (overall_scores [exScoreA, exScoreB]).overall_polarity_accuracy = 1/2 := by
  refine ⟨?_, by decide, by decide⟩
  intro ss
  constructor
  · rw [overall_scores_polarity]
    by_cases h : (ss.map (fun s => s.tp)).sum = 0
    · rw [if_pos h, if_neg (by omega)]
    · rw [if_neg h, if_pos (by omega)]
  · rw [overall_scores_bucket]
    by_cases h : (ss.map (fun s => s.tp)).sum = 0
    · rw [if_pos h, if_neg (by omega)]
    · rw [if_neg h, if_pos (by omega)]

/-! ### Stability of the sort, per score class -/

theorem filter_score_orderedInsert (q : ℚ) (x : Cand) :
    ∀ M : List Cand,
      (List.orderedInsert scoreGE x M).filter (fun c => decide (c.1 = q))
        = if x.1 = q then x :: M.filter (fun c => decide (c.1 = q))
          else M.filter (fun c => decide (c.1 = q))
  | [] => by
    by_cases hq : x.1 = q
    · rw [if_pos hq]
      simp [List.orderedInsert, hq]
    · rw [if_neg hq]
      simp [List.orderedInsert, hq]
  | y :: M' => by
    by_cases hxy : scoreGE x y
    · rw [List.orderedInsert, if_pos hxy]
      by_cases hq : x.1 = q
      · rw [if_pos hq]
        simp [List.filter_cons, hq]
      · rw [if_neg hq]
        simp [List.filter_cons, hq]
    · rw [List.orderedInsert, if_neg hxy]
      have hy : ¬ (y.1 ≤ x.1) := hxy
      by_cases hq : x.1 = q
      · have hyq : ¬ (y.1 = q) := fun hc => hy (le_of_eq (by rw [hc, hq]))
        rw [if_pos hq, List.filter_cons, List.filter_cons, if_neg (by simpa using hyq),
          if_neg (by simpa using hyq), filter_score_orderedInsert q x M', if_pos hq]
      · rw [if_neg hq, List.filter_cons, List.filter_cons,
          filter_score_orderedInsert q x M', if_neg hq]

theorem filter_score_insertionSort (q : ℚ) :
    ∀ l : List Cand,
      (List.insertionSort scoreGE l).filter (fun c => decide (c.1 = q))
        = l.filter (fun c => decide (c.1 = q))
  | [] => rfl
  | x :: l => by
    rw [List.insertionSort, filter_score_orderedInsert q x (List.insertionSort scoreGE l),
      filter_score_insertionSort q l, List.filter_cons]
    by_cases hq : x.1 = q
    · rw [if_pos hq, if_pos (by simpa using hq)]
    · rw [if_neg hq, if_neg (by simpa using hq)]

/-- C4: the matcher is the described deterministic greedy algorithm — the
candidate list is sorted descending by weight (`Sorted scoreGE`), the sorted
list is a permutation of the generated candidates, the sort is stable (within
every equal-weight class, candidates stay in generation order: gold-index
outer loop, predicted-index inner loop), and the committed pairs are exactly
the fold of the commit step over that sorted list. -/
theorem claim_C4_deterministic_greedy (th : ℚ) (gold predicted : List SemanticObject) :
    List.Sorted scoreGE (sorted_matches th gold predicted) ∧
      (sorted_matches th gold predicted).Perm (potential_matches th gold predicted) ∧
      (∀ q : ℚ, (sorted_matches th gold predicted).filter (fun c => decide (c.1 = q))
          = (potential_matches th gold predicted).filter (fun c => decide (c.1 = q))) ∧
      (match_objects th gold predicted).1
        = (List.foldl (greedy_step gold predicted) ⟨[], ∅, ∅⟩
            (sorted_matches th gold predicted)).matched_pairs :=
  ⟨List.sorted_insertionSort scoreGE (potential_matches th gold predicted),
    List.perm_insertionSort scoreGE (potential_matches th gold predicted),
    fun q => filter_score_insertionSort q (potential_matches th gold predicted),
    rfl⟩

end Ashwam

namespace Ashwam

attribute [local semireducible] Rat.mul Rat.inv Rat.add

/-! ### Corpus coverage: ratio-reconstruction vs raw counts -/

theorem tp_fp_len (th : ℚ) (text : String) (gold predicted : List SemanticObject) :
    (score_journal th text gold predicted).tp + (score_journal th text gold predicted).fp
      = predicted.length := by
  rw [score_journal_tp, score_journal_fp]
  exact tp_add_fp_eq th gold predicted

theorem coverage_mul_tp_fp (th : ℚ) (text : String) (gold predicted : List SemanticObject) :
    (score_journal th text gold predicted).evidence_coverage_rate
        * (((score_journal th text gold predicted).tp : ℚ)
            + ((score_journal th text gold predicted).fp : ℚ))
      = ((predicted.countP (fun p => spanInText p.evidence_span text)) : ℚ) := by
  have hcast : ((score_journal th text gold predicted).tp : ℚ)
      + ((score_journal th text gold predicted).fp : ℚ) = (predicted.length : ℚ) := by
    exact_mod_cast congrArg (fun n : ℕ => (n : ℚ)) (tp_fp_len th text gold predicted)
  rw [score_journal_coverage, hcast]
  by_cases h : predicted.length > 0
  · rw [if_pos h]
    exact div_mul_cancel₀ _ (by exact_mod_cast Nat.pos_iff_ne_zero.mp h)
  · rw [if_neg h]
    have h0 : predicted = [] := List.length_eq_zero.mp (by omega)
    subst h0
    simp

/-- Direct raw-count corpus coverage, following the spec's design note: carry
the raw counts `valid_evidence_spans` and the predicted-object count per
document, and divide the totals (0.0 when there are no predictions at all).
This is the alternative the claim compares against the source's
ratio-reconstruction. -/
def direct_overall_evidence_coverage_rate (th : ℚ)
    (docs : List (String × List SemanticObject × List SemanticObject)) : ℚ :=
  let total_valid : ℕ :=
    (docs.map (fun d => d.2.2.countP (fun p => spanInText p.evidence_span d.1))).sum
  let total_predicted : ℕ := (docs.map (fun d => d.2.2.length)).sum
  if total_predicted > 0 then (total_valid : ℚ) / (total_predicted : ℚ) else 0

/-- C9: reconstructing the corpus evidence-coverage rate from per-document
ratios — Σ(coverage·(tp+fp)) / Σ(tp+fp), 0.0 when the denominator is 0 — is
equivalent to the direct raw-count computation Σ valid_spans / Σ |predicted|
over the same documents (each document given as text, gold list, predicted
list). -/
theorem claim_C9_coverage_equivalence (th : ℚ)
    (docs : List (String × List SemanticObject × List SemanticObject)) :
    (overall_scores (docs.map (fun d =>
        score_journal th d.1 d.2.1 d.2.2))).overall_evidence_coverage_rate
      = direct_overall_evidence_coverage_rate th docs := by
  rw [overall_scores_coverage]
  unfold direct_overall_evidence_coverage_rate
  simp only [List.map_map]
  have hden : (docs.map ((fun s : JournalScore => s.tp + s.fp)
        ∘ (fun d : String × List SemanticObject × List SemanticObject =>
            score_journal th d.1 d.2.1 d.2.2))).sum
      = (docs.map (fun d => d.2.2.length)).sum := by
    refine congrArg List.sum (List.map_congr_left ?_)
    intro d _
    exact tp_fp_len th d.1 d.2.1 d.2.2
  have hnum : (docs.map ((fun s : JournalScore =>
        s.evidence_coverage_rate * ((s.tp : ℚ) + (s.fp : ℚ)))
        ∘ (fun d : String × List SemanticObject × List SemanticObject =>
            score_journal th d.1 d.2.1 d.2.2))).sum
      = (((docs.map (fun d =>
            d.2.2.countP (fun p => spanInText p.evidence_span d.1))).sum : ℕ) : ℚ) := by
    rw [Nat.cast_list_sum, List.map_map]
    refine congrArg List.sum (List.map_congr_left ?_)
    intro d _
    exact coverage_mul_tp_fp th d.1 d.2.1 d.2.2
  rw [hden, hnum]

/-! ### Empty evidence spans are always covered -/

theorem spanInText_empty (text : String) : spanInText "" text = true := by
  unfold spanInText
  exact decide_eq_true ⟨[], text.data, by simp⟩

/-- C10: an empty evidence_span is a substring of every document text, so a
predicted object with empty span always counts as covered, and a non-empty
predicted list consisting only of empty-span objects has
evidence_coverage_rate 1.0. -/
theorem claim_C10_empty_span_covered :
    (∀ text : String, spanInText "" text = true) ∧
      ∀ (th : ℚ) (text : String) (gold predicted : List SemanticObject),
        predicted ≠ [] → (∀ p ∈ predicted, p.evidence_span = "") →
        (score_journal th text gold predicted).evidence_coverage_rate = 1 := by
  refine ⟨spanInText_empty, ?_⟩
  intro th text gold predicted hne hspans
  have hlen : 0 < predicted.length := List.length_pos.mpr hne
  have hcount : predicted.countP (fun p => spanInText p.evidence_span text)
      = predicted.length := by
    refine List.countP_eq_length.mpr ?_
    intro p hp
    rw [hspans p hp]
    exact spanInText_empty text
  rw [score_journal_coverage, if_pos hlen, hcount]
  exact div_self (by exact_mod_cast Nat.pos_iff_ne_zero.mp hlen)

/-- Predicted object whose evidence span is the empty string. -/
def exEmptySpan : SemanticObject :=
  { domain := "mind", evidence_span := "", polarity := "present",
    intensity_bucket := "low", arousal_bucket := "unknown", time_bucket := "today" }

/-- Concrete instantiation of `claim_C10_empty_span_covered`. -/
theorem claim_C10_witness :
    spanInText "" "hello world" = true ∧
      (score_journal (1/2) "hello world" [] [exEmptySpan]).evidence_coverage_rate = 1 :=
  ⟨claim_C10_empty_span_covered.1 "hello world",
    claim_C10_empty_span_covered.2 (1/2) "hello world" [] [exEmptySpan]
      (by decide) (by decide)⟩

end Ashwam
